import Mathlib

/-!
Verification of the JMOSS air-data calibration engine (python sources under
src/JMOSS) against its natural-language specification.  The python code is
shallowly embedded: numeric arrays become lists over the rationals or the
reals, the parameter-name dictionary becomes an association list, fallible
operations return Except, and the fixed-point solver loop is modelled with
explicit fuel.  External numeric kernels (numpy exp, fractional powers,
scipy root finding, the chi-square quantile) are irrational-valued library
calls; where a claim does not depend on their values they appear as explicit
function parameters, and where it does (the Mach conversions) they are
embedded exactly over the reals.
-/

namespace JMOSS

/-! ## Helper lemmas for the Except monad -/

@[simp] theorem except_map_ok {ε α β : Type} (f : α → β) (a : α) :
    Except.map f (.ok a : Except ε α) = .ok (f a) := rfl

@[simp] theorem except_map_error {ε α β : Type} (f : α → β) (e : ε) :
    Except.map f (.error e : Except ε α) = .error e := rfl

@[simp] theorem except_bind_ok {ε α β : Type} (a : α) (f : α → Except ε β) :
    (Except.ok a : Except ε α) >>= f = f a := rfl

@[simp] theorem except_bind_error {ε α β : Type} (e : ε) (f : α → Except ε β) :
    (Except.error e : Except ε α) >>= f = .error e := rfl

/-! ## Parameter-name mapping and estimator construction (estimation.py) -/

/-- Mapping from semantic parameter name to DAS column name, modelling the
python dict given to the JmossEstimator constructor. -/
abbrev ParameterNames := List (String × String)

/-- Membership test modelling python: key in parameter_names.keys(). -/
def hasKey (names : ParameterNames) (key : String) : Bool :=
  (names.map Prod.fst).contains key

/-- A loaded test point, modelling the pandas dataframe as a total map from
DAS column name to numeric column.  Column lookup in the dataframe never
fails in this model; the claims under study concern only the lookups in the
parameter-name mapping. -/
abbrev DataFrame := String → List ℚ

/-- Estimator state: loaded flight data by label, computed SPE results by
label, the parameter-name mapping, and the use_oat flag; the result payload
type is a parameter.  Models the attributes set in JmossEstimator.__init__
(estimation.py lines 26-41). -/
structure EstimatorState (ρ : Type) where
  flight_data : List (String × DataFrame)
  spe_results : List (String × ρ)
  parameter_names : ParameterNames
  use_oat : Bool

/-- Constructor JmossEstimator.__init__ (estimation.py lines 26-41): start
with empty flight data and results; if the mapping has an ambient
temperature key set use_oat, else if it has a total temperature key clear
use_oat, else raise KeyError. -/
def jmossInit (ρ : Type) (names : ParameterNames) :
    Except String (EstimatorState ρ) :=
  if hasKey names "ambient temperature" then
    .ok ⟨[], [], names, true⟩
  else if hasKey names "total temperature" then
    .ok ⟨[], [], names, false⟩
  else
    .error "Neither ambient temperature nor total temperature were provided."

/-- Python dict subscript parameter_names[parameter_name]: ok on a present
key, KeyError otherwise (estimation.py line 92). -/
def dictGet (names : ParameterNames) (key : String) : Except String String :=
  match names.lookup key with
  | some das => .ok das
  | none => .error ("KeyError: " ++ key)

/-- JmossEstimator.get_test_point_parameter (estimation.py lines 90-94):
resolve the semantic name through the mapping, then read the dataframe
column. -/
def getTestPointParameter (names : ParameterNames) (data : DataFrame)
    (pname : String) : Except String (List ℚ) :=
  (dictGet names pname).map data

/-- Semantic names read by get_frame_transform, in source order
(estimation.py lines 220-230). -/
def frameTransformNames : List String :=
  ["roll angle", "pitch angle", "true heading", "angle of slideslip",
   "north velocity", "east velocity", "down velocity"]

/-- Semantic names read by extract_flight_data, in source order
(estimation.py lines 208-218).  The total temperature entry is read
unconditionally, whatever the use_oat flag. -/
def extractNames : List String :=
  ["total pressure", "total temperature", "north velocity", "east velocity",
   "down velocity", "geometric height", "static pressure", "angle of attack"]

/-- Sequential parameter lookups, failing at the first absent key, as the
successive get_test_point_parameter calls do. -/
def lookupAll (names : ParameterNames) (data : DataFrame) :
    List String → Except String (List (List ℚ))
  | [] => .ok []
  | p :: rest => do
    let c ← getTestPointParameter names data p
    let cs ← lookupAll names data rest
    .ok (c :: cs)

/-- Dict assignment self.spe_results[label] = results: replace an existing
entry or append a new one. -/
def dictSet (ρ : Type) (d : List (String × ρ)) (key : String) (v : ρ) :
    List (String × ρ) :=
  if (d.map Prod.fst).contains key then
    d.map (fun kv => if kv.1 = key then (key, v) else kv)
  else
    d ++ [(key, v)]

/-- JmossEstimator.__process_test_point (estimation.py lines 162-183):
check the label, run the frame-transform lookups (lines 220-230), run the
data-extraction lookups (lines 208-218), re-read the roll angle for the
turn mask (line 177), then solve and store the result.  The numeric
least-squares stage does not influence the error behaviour at stake and is
a function parameter. -/
def processTestPoint (ρ : Type)
    (solve : List (List ℚ) → List (List ℚ) → List ℚ → ρ)
    (st : EstimatorState ρ) (label : String) :
    Except String (EstimatorState ρ) :=
  match st.flight_data.lookup label with
  | none => .error ("Test point " ++ label ++ " not found.")
  | some data => do
    let ft ← lookupAll st.parameter_names data frameTransformNames
    let fd ← lookupAll st.parameter_names data extractNames
    let roll ← getTestPointParameter st.parameter_names data "roll angle"
    .ok { st with spe_results := dictSet ρ st.spe_results label (solve ft fd roll) }

/-- Property test_point_names_list (estimation.py lines 43-45): the labels
of all added test points, in insertion order. -/
def testPointNamesList (ρ : Type) (st : EstimatorState ρ) : List String :=
  st.flight_data.map Prod.fst

/-- Loop body of get_results (estimation.py lines 148-153): collect the
result of each label, raising IndexError at the first label without one. -/
def getResultsGo (ρ : Type) (sr : List (String × ρ)) :
    List String → Except String (List ρ)
  | [] => .ok []
  | l :: rest =>
    match sr.lookup l with
    | none => .error ("Test point " ++ l ++ " has not been processed.")
    | some r => (getResultsGo ρ sr rest).map (fun t => r :: t)

/-- JmossEstimator.get_results (estimation.py lines 145-154): with no label
list, iterate over the labels of all added test points. -/
def getResults (ρ : Type) (st : EstimatorState ρ)
    (labels : Option (List String)) : Except String (List ρ) :=
  getResultsGo ρ st.spe_results (labels.getD (testPointNamesList ρ st))

/-- Opening of JmossEstimator.fit_model (estimation.py lines 375-378): the
collection stage is exactly get_results on the given labels; the regression
that follows is a function parameter mapping the collected results to the
fitted model. -/
def fitModelOn (ρ μ : Type) (fit : List ρ → μ) (st : EstimatorState ρ)
    (labels : Option (List String)) : Except String μ :=
  (getResults ρ st labels).map fit

/-! ## Claim C8: construction errors exactly when both temperature keys are absent -/

/-- Claim C8: constructing a JmossEstimator raises an error if and only if
the parameter-name mapping contains neither an ambient temperature nor a
total temperature key; the error is raised at construction, before any
point is added (the constructed state has empty flight data and results),
and when at least one of the two keys is present construction succeeds. -/
theorem C8_init_error_iff (ρ : Type) (names : ParameterNames) :
    ((∃ e, jmossInit ρ names = .error e) ↔
      (hasKey names "ambient temperature" = false ∧
        hasKey names "total temperature" = false))
    ∧ (∀ st, jmossInit ρ names = .ok st →
        st.flight_data = [] ∧ st.spe_results = [])
    ∧ (hasKey names "ambient temperature" = true ∨
        hasKey names "total temperature" = true →
        ∃ st, jmossInit ρ names = .ok st) := by
  by_cases h1 : hasKey names "ambient temperature" = true
  · have hinit : jmossInit ρ names = .ok ⟨[], [], names, true⟩ := by
      simp [jmossInit, h1]
    refine ⟨⟨?_, ?_⟩, ?_, ?_⟩
    · rintro ⟨e, he⟩; rw [hinit] at he; exact Except.noConfusion he
    · rintro ⟨ha, _⟩; rw [h1] at ha; exact absurd ha (by simp)
    · intro st h; rw [hinit] at h; cases h; exact ⟨rfl, rfl⟩
    · intro _; exact ⟨_, hinit⟩
  · have h1f : hasKey names "ambient temperature" = false := by simpa using h1
    by_cases h2 : hasKey names "total temperature" = true
    · have hinit : jmossInit ρ names = .ok ⟨[], [], names, false⟩ := by
        simp [jmossInit, h1f, h2]
      refine ⟨⟨?_, ?_⟩, ?_, ?_⟩
      · rintro ⟨e, he⟩; rw [hinit] at he; exact Except.noConfusion he
      · rintro ⟨_, hb⟩; rw [h2] at hb; exact absurd hb (by simp)
      · intro st h; rw [hinit] at h; cases h; exact ⟨rfl, rfl⟩
      · intro _; exact ⟨_, hinit⟩
    · have h2f : hasKey names "total temperature" = false := by simpa using h2
      have hinit : jmossInit ρ names = .error
          "Neither ambient temperature nor total temperature were provided." := by
        simp [jmossInit, h1f, h2f]
      refine ⟨⟨?_, ?_⟩, ?_, ?_⟩
      · intro _; exact ⟨h1f, h2f⟩
      · intro _; exact ⟨_, hinit⟩
      · intro st h; rw [hinit] at h; exact Except.noConfusion h
      · rintro (ha | hb)
        · rw [h1f] at ha; exact absurd ha (by simp)
        · rw [h2f] at hb; exact absurd hb (by simp)

/-- Witness for C8 at a mapping holding only the total temperature key:
construction succeeds. -/
theorem C8_init_error_iff_witness :
    ∃ st, jmossInit Unit [("total temperature", "tt")] = .ok st :=
  (C8_init_error_iff Unit [("total temperature", "tt")]).2.2 (Or.inr (by decide))

/-! ## Claim C9: ambient-only configuration constructs but cannot process -/

/-- When every semantic name in the list is present in the mapping, the
sequential lookups succeed and return the corresponding columns. -/
theorem lookupAll_ok_of_isSome (names : ParameterNames) (data : DataFrame)
    (ps : List String) (h : ∀ p ∈ ps, (names.lookup p).isSome) :
    lookupAll names data ps =
      .ok (ps.map fun p => data ((names.lookup p).getD "")) := by
  induction ps with
  | nil => rfl
  | cons q qs ih =>
    have hq := h q (by simp)
    rcases hv : names.lookup q with _ | v
    · rw [hv] at hq; simp at hq
    · simp [lookupAll, getTestPointParameter, dictGet, hv,
        ih fun p hp => h p (by simp [hp])]

/-- Claim C9 (implicit): if the mapping contains the ambient temperature key
but not the total temperature key, construction succeeds with use_oat true,
yet processing any added test point fails with a key-lookup error on the
total temperature entry (which extract_flight_data reads unconditionally)
and stores no result: the results list is left exactly as it was. -/
theorem C9_ambient_only_processing_fails (ρ : Type)
    (solve : List (List ℚ) → List (List ℚ) → List ℚ → ρ)
    (names : ParameterNames)
    (hamb : hasKey names "ambient temperature" = true)
    (htot : names.lookup "total temperature" = none)
    (hframe : ∀ p ∈ frameTransformNames, (names.lookup p).isSome)
    (htp : (names.lookup "total pressure").isSome) :
    (∃ st, jmossInit ρ names = .ok st ∧ st.use_oat = true)
    ∧ (∀ st : EstimatorState ρ, st.parameter_names = names →
        ∀ label data, st.flight_data.lookup label = some data →
          processTestPoint ρ solve st label =
            .error "KeyError: total temperature") := by
  constructor
  · exact ⟨⟨[], [], names, true⟩, by simp [jmossInit, hamb], rfl⟩
  · intro st hnames label data hdata
    have hft := lookupAll_ok_of_isSome names data frameTransformNames hframe
    rcases hv : names.lookup "total pressure" with _ | v
    · rw [hv] at htp; simp at htp
    · simp only [processTestPoint, hdata, hnames]
      rw [hft]
      simp only [except_bind_ok, extractNames, lookupAll,
        getTestPointParameter, dictGet, hv, htot, except_map_ok,
        except_map_error, except_bind_error]
      rfl

/-- Witness for C9 at a concrete mapping holding every key except the total
temperature one. -/
theorem C9_ambient_only_processing_fails_witness :
    processTestPoint Unit (fun _ _ _ => ())
      ⟨[("tp1", fun _ => [])], [],
        [("ambient temperature", "oat_K"), ("roll angle", "roll"),
         ("pitch angle", "pitch"), ("true heading", "yaw"),
         ("angle of slideslip", "aos"), ("north velocity", "nv"),
         ("east velocity", "ev"), ("down velocity", "dv"),
         ("total pressure", "pt"), ("static pressure", "ps"),
         ("geometric height", "h"), ("angle of attack", "aoa")], true⟩
      "tp1" = .error "KeyError: total temperature" :=
  ((C9_ambient_only_processing_fails Unit (fun _ _ _ => ())
      [("ambient temperature", "oat_K"), ("roll angle", "roll"),
       ("pitch angle", "pitch"), ("true heading", "yaw"),
       ("angle of slideslip", "aos"), ("north velocity", "nv"),
       ("east velocity", "ev"), ("down velocity", "dv"),
       ("total pressure", "pt"), ("static pressure", "ps"),
       ("geometric height", "h"), ("angle of attack", "aoa")]
      (by decide) (by decide) (by decide) (by decide)).2
    _ rfl "tp1" (fun _ => []) rfl)

/-! ## Claim C10: default get_results iterates over added points -/

/-- Claim C10 (implicit): get_results with no label list iterates over the
labels of all added test points, so it raises an IndexError naming the
first added-but-unprocessed point and returns no list whenever any added
point lacks a result, even when other points have results; fit_model with
default labels therefore cannot return a fitted model in that case. -/
theorem C10_get_results_default (ρ μ : Type) (fit : List ρ → μ)
    (st : EstimatorState ρ) (pre post : List String) (l : String)
    (horder : testPointNamesList ρ st = pre ++ l :: post)
    (hpre : ∀ p ∈ pre, (st.spe_results.lookup p).isSome)
    (hl : st.spe_results.lookup l = none) :
    getResults ρ st none =
      .error ("Test point " ++ l ++ " has not been processed.")
    ∧ (∀ res, fitModelOn ρ μ fit st none ≠ .ok res) := by
  have key : ∀ ps : List String, (∀ p ∈ ps, (st.spe_results.lookup p).isSome) →
      getResultsGo ρ st.spe_results (ps ++ l :: post) =
        .error ("Test point " ++ l ++ " has not been processed.") := by
    intro ps
    induction ps with
    | nil =>
      intro _
      simp only [List.nil_append, getResultsGo, hl]
    | cons q qs ih =>
      intro hmem
      have hq := hmem q (by simp)
      rcases hv : st.spe_results.lookup q with _ | v
      · rw [hv] at hq; simp at hq
      · have ih2 := ih fun p hp => hmem p (by simp [hp])
        simp only [List.cons_append, getResultsGo, hv, List.append_eq, ih2,
          except_map_error]
  have herr : getResults ρ st none =
      .error ("Test point " ++ l ++ " has not been processed.") := by
    unfold getResults
    rw [Option.getD_none, horder]
    exact key pre hpre
  refine ⟨herr, fun res hok => ?_⟩
  rw [fitModelOn, herr] at hok
  simp at hok

/-- Witness for C10: two added points, only the second processed; the call
names the first. -/
theorem C10_get_results_default_witness :
    getResults Unit
      ⟨[("a", fun _ => []), ("b", fun _ => [])], [("b", ())], [], true⟩ none =
      .error "Test point a has not been processed." := by
  have h := (C10_get_results_default Unit Unit (fun _ => ())
    ⟨[("a", fun _ => []), ("b", fun _ => [])], [("b", ())], [], true⟩
    [] ["b"] "a" rfl (by decide) (by decide)).1
  exact h

/-! ## Claim C2: parameter covariance in SpeResults (estimation.py lines 245-258) -/

/-- Column-major flattening gs.flatten(order=F) of an n-by-3 per-sample
array, as used in jmoss_obj_tat (estimation.py line 205): entry i reads
sample i mod n of axis i div n, giving 3n entries in all. -/
def flattenF (n : ℕ) (g : Fin n → Fin 3 → ℚ) (i : Fin (3 * n)) : ℚ :=
  have hn : 0 < n := by
    rcases Nat.eq_zero_or_pos n with h | h
    · exact absurd i.isLt (by simp [h])
    · exact h
  g ⟨i.val % n, Nat.mod_lt _ hn⟩
    ⟨i.val / n, (Nat.div_lt_iff_lt_mul hn).2 (by
      have := i.isLt
      linarith [i.isLt])⟩

/-- Shape of the jmoss_obj_tat residual (estimation.py lines 186-206): the
estimated and measured n-by-3 ground-speed arrays are column-major
flattened and subtracted, so the residual handed to the least-squares
solver, and hence the Jacobian row count, has 3n entries for n samples. -/
def jmossObjTatResidual (n : ℕ) (gs_est gs_meas : Fin n → Fin 3 → ℚ) :
    Fin (3 * n) → ℚ :=
  fun i => flattenF n gs_est i - flattenF n gs_meas i

/-- Output of scipy least_squares as read by SpeResults.__init__: the
5-parameter estimate, the Jacobian at convergence with one row per residual
entry, and the cost. -/
structure LsqResults (n : ℕ) where
  x : Fin 5 → ℚ
  jac : Matrix (Fin (3 * n)) (Fin 5) ℚ
  cost : ℚ

/-- Matrix inverse by the adjugate formula; it agrees with the matrix
inverse, and numpy.linalg.inv, whenever the matrix is invertible. -/
def matInvAdj (A : Matrix (Fin 5) (Fin 5) ℚ) : Matrix (Fin 5) (Fin 5) ℚ :=
  A.det⁻¹ • A.adjugate

/-- Degrees-of-freedom corrected mean squared error of SpeResults.__init__
(estimation.py line 257): mse = sse / (jac.shape[0] - beta.shape[0]), the
row count being the residual length and the column count the parameter
count. -/
def speResultsMse (n : ℕ) (lsq : LsqResults n) : ℚ :=
  lsq.cost / ((Fintype.card (Fin (3 * n)) : ℚ) - (Fintype.card (Fin 5) : ℚ))

/-- Stored parameter covariance of SpeResults.__init__ (estimation.py line
258): beta_cov = mse * inv(jac.T @ jac). -/
def speResultsBetaCov (n : ℕ) (lsq : LsqResults n) :
    Matrix (Fin 5) (Fin 5) ℚ :=
  speResultsMse n lsq • matInvAdj (lsq.jac.transpose * lsq.jac)

/-- Claim C2: for a test point with n samples (hence 3n stacked residuals),
whenever JᵀJ is invertible, with inverse B, the stored parameter covariance
equals mse · (JᵀJ)⁻¹ with mse = cost / (3n − 5). -/
theorem C2_parameter_covariance (n : ℕ) (lsq : LsqResults n)
    (B : Matrix (Fin 5) (Fin 5) ℚ)
    (hB : lsq.jac.transpose * lsq.jac * B = 1) :
    speResultsBetaCov n lsq = (lsq.cost / (3 * (n : ℚ) - 5)) • B := by
  have hAinv : matInvAdj (lsq.jac.transpose * lsq.jac) = B := by
    rw [matInvAdj, ← Ring.inverse_eq_inv, ← Matrix.inv_def]
    exact Matrix.inv_eq_right_inv hB
  rw [speResultsBetaCov, hAinv, speResultsMse]
  congr 1
  push_cast [Fintype.card_fin]
  ring_nf

/-- Concrete Jacobian for the C2 witness: six residual rows (two samples),
the first five rows the identity and the last zero, so that JᵀJ is the
identity. -/
def c2WitnessJac : Matrix (Fin (3 * 2)) (Fin 5) ℚ :=
  fun i j => if (i : ℕ) = (j : ℕ) then 1 else 0

/-- Witness for C2: at two samples, unit cost and the concrete Jacobian
above, the stored covariance is the identity, matching cost/(6−5) times the
inverse of JᵀJ. -/
theorem C2_parameter_covariance_witness :
    speResultsBetaCov 2 ⟨fun _ => 0, c2WitnessJac, 1⟩ = (1 : ℚ) • (1 : Matrix (Fin 5) (Fin 5) ℚ) := by
  have hJ : c2WitnessJac.transpose * c2WitnessJac * (1 : Matrix (Fin 5) (Fin 5) ℚ) = 1 := by
    rw [mul_one]
    ext i j
    fin_cases i <;> fin_cases j <;>
      simp [c2WitnessJac, Matrix.mul_apply, Matrix.transpose_apply,
        Fin.sum_univ_six, Matrix.one_apply,
        show ((3 : Fin 6) : ℕ) = 3 from rfl, show ((4 : Fin 6) : ℕ) = 4 from rfl,
        show ((5 : Fin 6) : ℕ) = 5 from rfl,
        show ((3 : Fin 5) : ℕ) = 3 from rfl, show ((4 : Fin 5) : ℕ) = 4 from rfl]
  have h := C2_parameter_covariance 2 ⟨fun _ => 0, c2WitnessJac, 1⟩ 1 hJ
  rw [h]
  norm_num

/-! ## Claim C1: fit_model weights (estimation.py lines 379-395) -/

/-- Per-point inputs to the cross-point fit: instrument-corrected Mach,
SPE ratio, the SPE-ratio uncertainty from point.sigmas, and the turning
mask, per sample. -/
structure SpePoint where
  mach_ic : List ℚ
  spe_ratio : List ℚ
  sigma_spe : List ℚ
  turn_idx : List Bool

/-- Boolean-mask selection x[~turning] of numpy, pairing samples with the
mask and keeping the non-turning ones. -/
def maskNot (xs : List ℚ) (mask : List Bool) : List ℚ :=
  ((xs.zip mask).filter fun p => !p.2).map Prod.fst

/-- Collected machs across points, fit_model lines 383-391. -/
def fitModelMachs (results : List SpePoint) : List ℚ :=
  (results.map fun p => maskNot p.mach_ic p.turn_idx).flatten

/-- Collected SPE ratios across points, fit_model lines 383-392. -/
def fitModelSpes (results : List SpePoint) : List ℚ :=
  (results.map fun p => maskNot p.spe_ratio p.turn_idx).flatten

/-- Collected SPE-ratio uncertainties across points, fit_model lines
383-390; the source gathers them into the sigmas list. -/
def fitModelCollectedSigmas (results : List SpePoint) : List ℚ :=
  (results.map fun p => maskNot p.sigma_spe p.turn_idx).flatten

/-- Source line 393, exactly as written: sigmas = hstack(spes) ** 2, which
squares the collected SPE ratios, discarding the gathered uncertainty
list. -/
def fitModelVariances (results : List SpePoint) : List ℚ :=
  (fitModelSpes results).map fun s => s ^ 2

/-- Source line 395: w = 1 / sigmas, the per-sample weights put on the
diagonal of the weight matrix. -/
def fitModelWeights (results : List SpePoint) : List ℚ :=
  (fitModelVariances results).map fun v => 1 / v

/-- Weights as the spec states them: one over the variance of each sample,
the variance being the square of the sample's reported SPE-ratio
uncertainty. -/
def fitModelWeights_spec (results : List SpePoint) : List ℚ :=
  (fitModelCollectedSigmas results).map fun s => 1 / s ^ 2

/-- Claim C1 evaluated at the failing input: one point with a single
non-turning sample whose SPE ratio is 1/2 and whose reported SPE-ratio
uncertainty is 1/10.  The code weights the sample by 1/(1/2)^2 = 4, while
the specified weight is 1/(1/10)^2 = 100: line 393 squares the SPE ratios
where the intent, visible in the dead collection of the sigmas list on
lines 383-390, was to square the uncertainties. -/
theorem C1_fit_weights_bug :
    fitModelWeights [⟨[1/2], [1/2], [1/10], [false]⟩] = [4]
    ∧ fitModelWeights_spec [⟨[1/2], [1/2], [1/10], [false]⟩] = [100]
    ∧ fitModelWeights [⟨[1/2], [1/2], [1/10], [false]⟩] ≠
        fitModelWeights_spec [⟨[1/2], [1/2], [1/10], [false]⟩] := by
  have h1 : fitModelWeights [⟨[1/2], [1/2], [1/10], [false]⟩] = [4] := by
    simp [fitModelWeights, fitModelVariances, fitModelSpes, maskNot]
    norm_num
  have h2 : fitModelWeights_spec [⟨[1/2], [1/2], [1/10], [false]⟩] = [100] := by
    simp [fitModelWeights_spec, fitModelCollectedSigmas, maskNot]
    norm_num
  refine ⟨h1, h2, ?_⟩
  rw [h1, h2]
  intro h
  injection h with hh _
  exact absurd hh (by norm_num)

/-! ## Claims C3, C4, C7: uncertainty propagation and prediction band
(estimation.py lines 284-373) -/

/-- Wind-component width recorded by generate_inferences (estimation.py
lines 331-338): wind_cov = covariance[1:4, 1:4], sigma = sqrt of its
diagonal entry.  The function takes no significance level. -/
noncomputable def windSigma (cov : Matrix (Fin 5) (Fin 5) ℝ) (index : Fin 3) : ℝ :=
  Real.sqrt (cov (Fin.castLE (by omega) index.succ) (Fin.castLE (by omega) index.succ))

/-- Eta width recorded by generate_inferences (estimation.py lines
340-343): sigma = sqrt(covariance[4, 4]).  No significance level is
taken. -/
noncomputable def etaSigma (cov : Matrix (Fin 5) (Fin 5) ℝ) : ℝ :=
  Real.sqrt (cov 4 4)

/-- Wind width as reported to the user who requested significance level
alpha: the pipeline computes it in generate_inferences, which receives no
significance input, so the requested level does not reach the
computation. -/
noncomputable def reportedWindWidth (alpha : ℝ) (cov : Matrix (Fin 5) (Fin 5) ℝ)
    (index : Fin 3) : ℝ :=
  windSigma cov index

/-- Eta width as reported to the user who requested significance level
alpha; as with the wind widths, the requested level does not reach the
computation. -/
noncomputable def reportedEtaWidth (alpha : ℝ) (cov : Matrix (Fin 5) (Fin 5) ℝ) : ℝ :=
  etaSigma cov

/-- Confidence width per dimension as the spec words it:
sqrt(chi2_quantile · variance), the quantile taken at 1 − alpha with one
degree of freedom. -/
noncomputable def width_spec (chi2val variance : ℝ) : ℝ :=
  Real.sqrt (chi2val * variance)

/-- Claim C3 refuted at a concrete input: at the identity covariance the
code reports width sqrt(1) = 1 for the first wind component and for eta
(generate_inferences applies no chi-square factor), while the claimed
formula at the significance level whose chi-square(1) quantile is 4
(about the 95.45 percent level) gives sqrt(4 · 1) = 2. -/
theorem C3_counterexample :
    windSigma (1 : Matrix (Fin 5) (Fin 5) ℝ) 0 = 1
    ∧ etaSigma (1 : Matrix (Fin 5) (Fin 5) ℝ) = 1
    ∧ width_spec 4 ((1 : Matrix (Fin 5) (Fin 5) ℝ) 4 4) = 2
    ∧ windSigma (1 : Matrix (Fin 5) (Fin 5) ℝ) 0 ≠
        width_spec 4 ((1 : Matrix (Fin 5) (Fin 5) ℝ) 4 4) := by
  have h1 : windSigma (1 : Matrix (Fin 5) (Fin 5) ℝ) 0 = 1 := by
    rw [windSigma]
    norm_num [Matrix.one_apply]
  have h2 : etaSigma (1 : Matrix (Fin 5) (Fin 5) ℝ) = 1 := by
    rw [etaSigma]
    norm_num [Matrix.one_apply]
  have h3 : width_spec 4 ((1 : Matrix (Fin 5) (Fin 5) ℝ) 4 4) = 2 := by
    rw [width_spec, Matrix.one_apply_eq]
    rw [show (4 : ℝ) * 1 = 2 ^ 2 by norm_num, Real.sqrt_sq (by norm_num)]
  exact ⟨h1, h2, h3, by rw [h1, h3]; norm_num⟩

/-- Claim C3 amended: the reported wind and eta confidence widths equal the
square root of the corresponding diagonal entry of the parameter covariance
matrix, with no chi-square quantile applied, which is the claimed formula
with the quantile factor replaced by 1; no significance level enters. -/
theorem C3_width_formula (cov : Matrix (Fin 5) (Fin 5) ℝ) :
    (∀ index : Fin 3, windSigma cov index =
      width_spec 1 (cov (Fin.castLE (by omega) index.succ)
        (Fin.castLE (by omega) index.succ)))
    ∧ etaSigma cov = width_spec 1 (cov 4 4)
    ∧ (∀ alpha alpha2 : ℝ, (∀ index, reportedWindWidth alpha cov index =
          reportedWindWidth alpha2 cov index)
        ∧ reportedEtaWidth alpha cov = reportedEtaWidth alpha2 cov) := by
  refine ⟨fun index => ?_, ?_, fun alpha alpha2 => ⟨fun index => rfl, rfl⟩⟩
  · rw [windSigma, width_spec, one_mul]
  · rw [etaSigma, width_spec, one_mul]

/-! ### Claim C4: the 4-point confidence ellipse -/

/-- The 4-point unit circle of generate_inferences (estimation.py line
294): array([[1, 0], [0, 1], [-1, 0], [0, -1]]).T, one column per
point. -/
noncomputable def circle4 : Matrix (Fin 2) (Fin 4) ℝ :=
  Matrix.of ![![1, 0, -1, 0], ![0, 1, 0, -1]]

/-- Ellipse construction of generate_inferences (estimation.py lines
296-305): scale = sqrt(diag(w)) for the eigenvalues w (the square root of
the off-diagonal zeros is zero, so this is the diagonal matrix of
sqrt(w)), ellipse = v @ scale @ circle + sub_p with the eigenvector matrix
v and the point estimate sub_p.  The eigenvalues enter unscaled: the
function has no significance-level or scale argument. -/
noncomputable def ellipsePoints (w : Fin 2 → ℝ) (v : Matrix (Fin 2) (Fin 2) ℝ)
    (p : Fin 2 → ℝ) : Matrix (Fin 2) (Fin 4) ℝ :=
  fun i j => (v * Matrix.diagonal (fun k => Real.sqrt (w k)) * circle4) i j + p i

/-- Ellipse construction as the spec words it, with the eigenvalues scaled
by a caller-selected factor, 1 for one-sigma or a chi-square quantile at
two degrees of freedom for a significance level, before the square root. -/
noncomputable def ellipsePoints_spec (scale2 : ℝ) (w : Fin 2 → ℝ)
    (v : Matrix (Fin 2) (Fin 2) ℝ) (p : Fin 2 → ℝ) : Matrix (Fin 2) (Fin 4) ℝ :=
  fun i j => (v * Matrix.diagonal (fun k => Real.sqrt (scale2 * w k)) * circle4) i j + p i

/-- Claim C4 refuted at a concrete input: with unit eigenvalues, identity
eigenvectors and a zero centre, the code ellipse has first coordinate 1 at
the first point, while the claimed chi-square scaling at quantile 4 (about
the 86.5 percent level at two degrees of freedom) gives 2; the code offers
no way to select the latter, its construction having no scale argument. -/
theorem C4_counterexample :
    ellipsePoints ![1, 1] 1 ![0, 0] 0 0 = 1
    ∧ ellipsePoints_spec 4 ![1, 1] 1 ![0, 0] 0 0 = 2
    ∧ ellipsePoints ![1, 1] 1 ![0, 0] 0 0 ≠
        ellipsePoints_spec 4 ![1, 1] 1 ![0, 0] 0 0 := by
  have h4 : Real.sqrt (4 : ℝ) = 2 := by
    rw [show (4 : ℝ) = 2 ^ 2 by norm_num, Real.sqrt_sq (by norm_num)]
  have h1 : ellipsePoints ![1, 1] 1 ![0, 0] 0 0 = 1 := by
    simp [ellipsePoints, circle4, Matrix.mul_apply, Fin.sum_univ_two,
      Matrix.diagonal, Matrix.one_apply]
  have h2 : ellipsePoints_spec 4 ![1, 1] 1 ![0, 0] 0 0 = 2 := by
    simp [ellipsePoints_spec, circle4, Matrix.mul_apply, Fin.sum_univ_two,
      Matrix.diagonal, Matrix.one_apply, h4]
  exact ⟨h1, h2, by rw [h1, h2]; norm_num⟩

/-- Claim C4 amended: the 4-point ellipse is built exactly as described -
eigendecomposition of the 2-by-2 block, square roots of the eigenvalues on
the diagonal, the four unit points mapped through the eigenvectors and
translated by the point estimate - but always with the one-sigma scaling:
the eigenvalue scale factor is fixed at 1 and no caller choice of a
chi-square quantile exists. -/
theorem C4_ellipse_one_sigma (w : Fin 2 → ℝ) (v : Matrix (Fin 2) (Fin 2) ℝ)
    (p : Fin 2 → ℝ) :
    ellipsePoints w v p = ellipsePoints_spec 1 w v p := by
  funext i j
  rw [ellipsePoints, ellipsePoints_spec]
  simp only [one_mul]

/-- Ellipse as a function of the requested significance level: the SPE-ratio
and OAT widths are derived from evaluations of the fixed-point solver at
the four ellipse points, and the ellipse construction takes no significance
input, so the requested level does not reach them either. -/
noncomputable def reportedEllipse (alpha : ℝ) (w : Fin 2 → ℝ)
    (v : Matrix (Fin 2) (Fin 2) ℝ) (p : Fin 2 → ℝ) : Matrix (Fin 2) (Fin 4) ℝ :=
  ellipsePoints w v p

/-! ### Claim C7: interval widths against the requested confidence -/

/-- Regression row of SpeModel.predict (estimation.py lines 353-360):
columns [1, mach, mach^2], extended, when knot locations are present, by one
column (max(mach − knot, 0))^2 per knot: negative differences are zeroed
before squaring. -/
def xpredRowL (knots : List ℝ) (m : ℝ) : List ℝ :=
  [1, m, m ^ 2] ++ knots.map fun k => max (m - k) 0 ^ 2

/-- Quadratic form x K xᵀ over lists, the diagonal entry of
x_pred @ kernel @ x_pred.T belonging to one prediction row. -/
def quadForm (K : List (List ℝ)) (x : List ℝ) : ℝ :=
  (List.zipWith (fun xi row => xi * (List.zipWith (fun a b => a * b) row x).sum)
    x K).sum

/-- Standard error of the prediction at one Mach value (estimation.py line
366): the square root of mse times the corresponding diagonal entry of
x_pred @ kernel @ x_pred.T. -/
noncomputable def predictStd (knots : List ℝ) (K : List (List ℝ))
    (mse m : ℝ) : ℝ :=
  Real.sqrt (mse * quadForm K (xpredRowL knots m))

/-- Confidence half-width of SpeModel.predict (estimation.py lines
367-373): chi2val is 1 when no significance level is given, and the
chi-square quantile of 1 − alpha at one degree of freedom otherwise; the
quantile function of the external library is a parameter.  The half-width
is sqrt(chi2val) times the standard error. -/
noncomputable def predictCi (chi2ppf : ℝ → ℝ) (alpha : Option ℝ)
    (knots : List ℝ) (K : List (List ℝ)) (mse m : ℝ) : ℝ :=
  (match alpha with
    | none => Real.sqrt 1
    | some a => Real.sqrt (chi2ppf (1 - a))) * predictStd knots K mse m

/-- Claim C7 refuted at a concrete input: at the identity covariance the
eta width reported to a user who requests 99 percent confidence equals the
one reported at 90 percent (both are sqrt of the diagonal entry, 1), so
decreasing alpha from 0.10 to 0.01 does not strictly widen every reported
interval. -/
theorem C7_counterexample :
    reportedEtaWidth 0.01 (1 : Matrix (Fin 5) (Fin 5) ℝ) = 1
    ∧ reportedEtaWidth 0.10 (1 : Matrix (Fin 5) (Fin 5) ℝ) = 1
    ∧ ¬ reportedEtaWidth 0.10 (1 : Matrix (Fin 5) (Fin 5) ℝ) <
        reportedEtaWidth 0.01 (1 : Matrix (Fin 5) (Fin 5) ℝ) := by
  have h : reportedEtaWidth 0.01 (1 : Matrix (Fin 5) (Fin 5) ℝ) = 1 := by
    rw [reportedEtaWidth, etaSigma]
    norm_num [Matrix.one_apply]
  have h2 : reportedEtaWidth 0.10 (1 : Matrix (Fin 5) (Fin 5) ℝ) = 1 := by
    rw [reportedEtaWidth, etaSigma]
    norm_num [Matrix.one_apply]
  exact ⟨h, h2, by rw [h, h2]; norm_num⟩

/-- Claim C7 amended: decreasing the significance level strictly widens the
SPE-model prediction band wherever the band's standard error is positive,
given that the chi-square quantile at 1 − alpha grows with the confidence
and is nonnegative (properties of the external quantile function); the
per-point wind, eta, SPE-ratio and OAT widths, in contrast, are computed
with no significance input - the diagonal square roots for wind and eta and
the ellipse feeding the SPE-ratio and OAT extremes ignore the requested
level - so they are unchanged, not widened. -/
theorem C7_band_widens (chi2ppf : ℝ → ℝ) (knots : List ℝ)
    (K : List (List ℝ)) (mse m a1 a2 : ℝ)
    (hmono : chi2ppf (1 - a1) < chi2ppf (1 - a2))
    (hnn : 0 ≤ chi2ppf (1 - a1))
    (hstd : 0 < predictStd knots K mse m) :
    predictCi chi2ppf (some a1) knots K mse m <
      predictCi chi2ppf (some a2) knots K mse m
    ∧ (∀ alpha alpha2 : ℝ, ∀ cov : Matrix (Fin 5) (Fin 5) ℝ,
        (∀ index, reportedWindWidth alpha cov index =
          reportedWindWidth alpha2 cov index)
        ∧ reportedEtaWidth alpha cov = reportedEtaWidth alpha2 cov)
    ∧ (∀ alpha alpha2 : ℝ, ∀ w v p,
        reportedEllipse alpha w v p = reportedEllipse alpha2 w v p) := by
  refine ⟨?_, fun alpha alpha2 cov => ⟨fun index => rfl, rfl⟩,
    fun alpha alpha2 w v p => rfl⟩
  rw [predictCi, predictCi]
  exact mul_lt_mul_of_pos_right (Real.sqrt_lt_sqrt hnn hmono) hstd

/-- Witness for C7 at the identity quantile function, significance levels
one half and one quarter, no knots, the 3-by-3 identity kernel, unit mean
squared error and Mach zero, where the standard error is 1. -/
theorem C7_band_widens_witness :
    predictCi (fun x => x) (some (1/2)) [] [[1, 0, 0], [0, 1, 0], [0, 0, 1]] 1 0 <
      predictCi (fun x => x) (some (1/4)) [] [[1, 0, 0], [0, 1, 0], [0, 0, 1]] 1 0 :=
  (C7_band_widens (fun x => x) [] [[1, 0, 0], [0, 1, 0], [0, 0, 1]] 1 0
    (1/2) (1/4) (by norm_num) (by norm_num)
    (by
      have hq : quadForm [[1, 0, 0], [0, 1, 0], [0, 0, 1]] (xpredRowL [] 0) = 1 := by
        simp [quadForm, xpredRowL]
      rw [predictStd, hq]
      norm_num)).1

/-! ## Claim C5: the fixed-point pressure-altitude/OAT solver
(utilities.py lines 88-114) -/

/-- Temperature ratio from pressure altitude (utilities.py lines 57-63):
the constant 0.751865 above the tropopause at 36089.24 ft, the linear lapse
1 − 6.87559e-6 · h below; exactly rational. -/
def theta_from_press_alt (pa : ℚ) : ℚ :=
  if pa > 36089.24 then 0.751865 else 1 - 6.87559e-6 * pa

/-- numpy array mean. -/
def listMean (xs : List ℚ) : ℚ := xs.sum / xs.length

/-- numpy diff: successive differences x[i+1] − x[i]. -/
def listDiff (xs : List ℚ) : List ℚ :=
  List.zipWith (fun a b => b - a) xs xs.tail

/-- Running sums with the given initial accumulator. -/
def cumsumFrom (acc : ℚ) : List ℚ → List ℚ
  | [] => []
  | x :: xs => (acc + x) :: cumsumFrom (acc + x) xs

/-- numpy cumsum. -/
def cumsum (xs : List ℚ) : List ℚ := cumsumFrom 0 xs

/-- Inputs of iterate_pa_oat together with the two irrational-valued numeric
kernels it calls per sample: delta_fn stands for delta_from_press_alt
(utilities.py lines 39-45, a piecewise exp / fractional power) and mach_fn
for mach_from_qc_pa (lines 16-27, closed form or brentq root).  The claim
under study concerns only the loop's exit test, so it is proved for every
choice of these kernels. -/
structure PaOatInput where
  delta_fn : ℚ → ℚ
  mach_fn : ℚ → ℚ
  height : List ℚ
  tot_pres : List ℚ
  tat : List ℚ
  pa_bias : ℚ
  eta : ℚ

/-- Recomputation of ambient pressure, Mach and OAT from a pressure-altitude
series (utilities.py lines 90-95 and 106-111): amb = 14.6960·delta(pa),
mach = mach(qc/pa), oat_from_tat = tat/(1 + 0.2·eta·mach²),
oat_from_atm = 288.15·theta(pa), oat = oat_from_atm plus the mean bias. -/
def refreshFromPa (c : PaOatInput) (pa : List ℚ) : List ℚ × List ℚ × List ℚ :=
  let amb := pa.map fun x => 14.6960 * c.delta_fn x
  let mach := List.zipWith (fun tp a => c.mach_fn ((tp - a) / a)) c.tot_pres amb
  let oat_from_tat := List.zipWith (fun t mc => t / (1 + 0.2 * c.eta * mc ^ 2)) c.tat mach
  let oat_from_atm := pa.map fun x => 288.15 * theta_from_press_alt x
  let bias := listMean oat_from_tat - listMean oat_from_atm
  (amb, mach, oat_from_atm.map fun x => x + bias)

/-- Loop state of iterate_pa_oat: the evolving pressure altitude and OAT
series, the derived ambient pressure and Mach, and the two convergence
sums. -/
structure PaOatState where
  pres_alt : List ℚ
  oat : List ℚ
  amb_pres : List ℚ
  mach_pc : List ℚ
  delta_pa : ℚ
  delta_oat : ℚ

/-- Pressure-altitude update of one loop iteration (utilities.py lines
100-102): temp_std = 288.15·theta(pres_alt), delta = temp_std/oat,
new_press_alt = cumsum(hstack([height[0], delta[1:]·diff(height)])) +
pa_bias. -/
def newPressAlt (c : PaOatInput) (s : PaOatState) : List ℚ :=
  let temp_std := s.pres_alt.map fun x => 288.15 * theta_from_press_alt x
  let delta := List.zipWith (fun t o => t / o) temp_std s.oat
  let steps := List.zipWith (fun d dh => d * dh) delta.tail (listDiff c.height)
  (cumsum (c.height.headD 0 :: steps)).map fun x => x + c.pa_bias

/-- Sum of squared differences of two series, as in the convergence sums of
utilities.py lines 103 and 112. -/
def sumSqDiff (xs ys : List ℚ) : ℚ :=
  (List.zipWith (fun a b => (a - b) ^ 2) xs ys).sum

/-- One body execution of the while loop (utilities.py lines 100-113). -/
def iterStep (c : PaOatInput) (s : PaOatState) : PaOatState :=
  let np := newPressAlt c s
  let r := refreshFromPa c np
  ⟨np, r.2.2, r.1, r.2.1, sumSqDiff s.pres_alt np, sumSqDiff s.oat r.2.2⟩

/-- State before the loop (utilities.py lines 89-98): pres_alt = height +
pa_bias, the derived series from it, and both convergence sums started at
1000. -/
def paOatInit (c : PaOatInput) : PaOatState :=
  let pa := c.height.map fun x => x + c.pa_bias
  let r := refreshFromPa c pa
  ⟨pa, r.2.2, r.1, r.2.1, 1000, 1000⟩

/-- Continuation test of the while loop (utilities.py line 99):
(delta_pres_alt > 1e-3) or (delta_oat > 1e-3). -/
def loopGuard (s : PaOatState) : Prop :=
  1e-3 < s.delta_pa ∨ 1e-3 < s.delta_oat

instance loopGuardDec (s : PaOatState) : Decidable (loopGuard s) := by
  unfold loopGuard; infer_instance

/-- The while loop with explicit fuel: the source loop has no iteration
cap, so the model returns none when the given fuel runs out before the
guard fails. -/
def iterLoop (c : PaOatInput) : ℕ → PaOatState → Option PaOatState
  | 0, _ => none
  | fuel + 1, s => if loopGuard s then iterLoop c fuel (iterStep c s) else some s

/-- iterate_pa_oat (utilities.py lines 88-114): initialize, loop, return
(amb_pres, oat, mach_pc). -/
def iterate_pa_oat (c : PaOatInput) (fuel : ℕ) :
    Option (List ℚ × List ℚ × List ℚ) :=
  (iterLoop c fuel (paOatInit c)).map fun s => (s.amb_pres, s.oat, s.mach_pc)

/-- Whenever the loop returns a state, both convergence sums of that state
are at most 1e-3: the guard is the only exit. -/
theorem iterLoop_some_tol (c : PaOatInput) :
    ∀ (fuel : ℕ) (s t : PaOatState), iterLoop c fuel s = some t →
      t.delta_pa ≤ 1e-3 ∧ t.delta_oat ≤ 1e-3 := by
  intro fuel
  induction fuel with
  | zero => intro s t h; exact Option.noConfusion h
  | succ n ih =>
    intro s t h
    rw [iterLoop] at h
    by_cases hg : loopGuard s
    · rw [if_pos hg] at h
      exact ih _ _ h
    · rw [if_neg hg] at h
      cases h
      unfold loopGuard at hg
      push_neg at hg
      exact hg

/-- The iteration reads only the pressure-altitude and OAT series of the
state, never the recorded sums. -/
theorem iterStep_congr (c : PaOatInput) (s t : PaOatState)
    (hpa : s.pres_alt = t.pres_alt) (hoat : s.oat = t.oat) :
    iterStep c s = iterStep c t := by
  unfold iterStep newPressAlt sumSqDiff
  rw [hpa, hoat]

/-- Input realizing an exact 2-cycle of the iteration: two samples at
heights 0 and 250000 ft, bias −230000 ft, eta 0, both total temperatures
at the mean value 3962402517/8000000 (chosen so that the pressure-altitude
map is a Möbius involution), and constant stand-ins for the two numeric
kernels.  From its own initial state the loop oscillates between pressure
altitudes 20000 and 14359070000/687559 forever. -/
def c5Input : PaOatInput :=
  ⟨fun _ => 1, fun _ => 0, [0, 250000], [1, 1],
   [3962402517 / 8000000, 3962402517 / 8000000], -230000, 0⟩

/-- Initial state of the 2-cycle input. -/
def c5s0 : PaOatState := paOatInit c5Input

/-- State after one iteration on the 2-cycle input. -/
def c5s1 : PaOatState := iterStep c5Input c5s0

/-- State after two iterations on the 2-cycle input. -/
def c5s2 : PaOatState := iterStep c5Input c5s1

/-- The initial pressure-altitude series of the 2-cycle input. -/
theorem c5_init_map :
    c5Input.height.map (fun x => x + c5Input.pa_bias) = [-230000, 20000] := by
  norm_num [c5Input]

/-- The initial state's pressure altitudes. -/
theorem c5s0_pa : c5s0.pres_alt = [-230000, 20000] := by
  rw [show c5s0.pres_alt = c5Input.height.map (fun x => x + c5Input.pa_bias) from rfl,
    c5_init_map]

/-- One iteration moves the second pressure altitude to
14359070000/687559. -/
theorem c5_NA : newPressAlt c5Input c5s0 = [-230000, 14359070000 / 687559] := by
  norm_num [newPressAlt, c5s0, paOatInit, refreshFromPa, c5Input,
    theta_from_press_alt, listMean, listDiff, cumsum, cumsumFrom]

/-- The next iteration moves it back: an exact 2-cycle. -/
theorem c5_NB : newPressAlt c5Input c5s1 = [-230000, 20000] := by
  norm_num [newPressAlt, c5s1, c5s0, iterStep, paOatInit, refreshFromPa,
    c5Input, theta_from_press_alt, listMean, listDiff, cumsum, cumsumFrom,
    sumSqDiff]

/-- The guard holds at the initial state: both sums start at 1000. -/
theorem c5_G0 : loopGuard c5s0 :=
  Or.inl (by rw [show c5s0.delta_pa = (1000 : ℚ) from rfl]; norm_num)

/-- The guard holds after one iteration: the pressure-altitude sum is the
squared jump of the cycle. -/
theorem c5_G1 : loopGuard c5s1 := by
  left
  rw [show c5s1.delta_pa = sumSqDiff c5s0.pres_alt (newPressAlt c5Input c5s0) from rfl,
    c5s0_pa, c5_NA]
  norm_num [sumSqDiff]

/-- The guard holds after two iterations, by the same jump. -/
theorem c5_G2 : loopGuard c5s2 := by
  left
  rw [show c5s2.delta_pa = sumSqDiff c5s1.pres_alt (newPressAlt c5Input c5s1) from rfl,
    show c5s1.pres_alt = newPressAlt c5Input c5s0 from rfl, c5_NA, c5_NB]
  norm_num [sumSqDiff]

/-- After two iterations the loop state steps back onto the state reached
after one: the orbit is eventually periodic. -/
theorem c5_S2 : iterStep c5Input c5s2 = c5s1 := by
  have hpa : c5s2.pres_alt = c5s0.pres_alt := by
    rw [show c5s2.pres_alt = newPressAlt c5Input c5s1 from rfl, c5_NB, c5s0_pa]
  have hoat : c5s2.oat = c5s0.oat := by
    rw [show c5s2.oat = (refreshFromPa c5Input (newPressAlt c5Input c5s1)).2.2 from rfl,
      c5_NB,
      show c5s0.oat =
        (refreshFromPa c5Input (c5Input.height.map fun x => x + c5Input.pa_bias)).2.2
        from rfl,
      c5_init_map]
  calc iterStep c5Input c5s2 = iterStep c5Input c5s0 :=
        iterStep_congr _ _ _ hpa hoat
    _ = c5s1 := rfl

/-- On the 2-cycle orbit the loop never returns, whatever the fuel. -/
theorem c5_no_term : ∀ (fuel : ℕ) (s : PaOatState),
    s = c5s0 ∨ s = c5s1 ∨ s = c5s2 → iterLoop c5Input fuel s = none := by
  intro fuel
  induction fuel with
  | zero => intro s _; rfl
  | succ n ih =>
    rintro s (rfl | rfl | rfl)
    · rw [iterLoop, if_pos c5_G0]
      exact ih _ (Or.inr (Or.inl rfl))
    · rw [iterLoop, if_pos c5_G1]
      exact ih _ (Or.inr (Or.inr rfl))
    · rw [iterLoop, if_pos c5_G2, c5_S2]
      exact ih _ (Or.inr (Or.inl rfl))

/-- Claim C5: whenever iterate_pa_oat returns, the final iteration's sum of
squared pressure-altitude changes and sum of squared OAT changes are both
at most 1e-3 (first conjunct); the loop's only exit test is that guard,
so with fuel left it always runs another iteration while either sum
exceeds 1e-3 - there is no iteration cap (second conjunct); and
termination is indeed not guaranteed for every input: on the exhibited
2-cycle input the solver never returns, whatever the fuel (third
conjunct).  The two irrational numeric kernels are model parameters and
the first two conjuncts hold for every choice of them. -/
theorem C5_solver_tolerance_no_cap :
    (∀ (c : PaOatInput) (fuel : ℕ) (out : List ℚ × List ℚ × List ℚ),
        iterate_pa_oat c fuel = some out →
        ∃ t, iterLoop c fuel (paOatInit c) = some t
          ∧ out = (t.amb_pres, t.oat, t.mach_pc)
          ∧ t.delta_pa ≤ 1e-3 ∧ t.delta_oat ≤ 1e-3)
    ∧ (∀ (c : PaOatInput) (fuel : ℕ) (s : PaOatState), loopGuard s →
        iterLoop c (fuel + 1) s = iterLoop c fuel (iterStep c s))
    ∧ (∃ c : PaOatInput, ∀ fuel, iterate_pa_oat c fuel = none) := by
  refine ⟨?_, ?_, ?_⟩
  · intro c fuel out h
    rw [iterate_pa_oat] at h
    rcases hL : iterLoop c fuel (paOatInit c) with _ | t
    · rw [hL] at h
      exact Option.noConfusion h
    · rw [hL] at h
      refine ⟨t, rfl, ?_, iterLoop_some_tol c fuel _ t hL⟩
      cases h
      rfl
  · intro c fuel s hg
    rw [iterLoop, if_pos hg]
  · refine ⟨c5Input, fun fuel => ?_⟩
    rw [iterate_pa_oat, c5_no_term fuel (paOatInit c5Input) (Or.inl rfl)]
    rfl

/-- Converging input for the C5 witness: a single sample at height 0, unit
total pressure, standard-day total temperature, zero bias and eta, constant
kernel stand-ins.  The loop converges on the second guard check. -/
def c5wInput : PaOatInput :=
  ⟨fun _ => 1, fun _ => 0, [0], [1], [288.15], 0, 0⟩

/-- Witness for C5: on the converging input the solver returns with fuel 2
and the returned state's convergence sums are within tolerance, by the
claim applied to the concrete run. -/
theorem C5_solver_tolerance_no_cap_witness :
    ∃ t, iterLoop c5wInput 2 (paOatInit c5wInput) = some t
      ∧ t.delta_pa ≤ 1e-3 ∧ t.delta_oat ≤ 1e-3 := by
  have e1 : (iterStep c5wInput (paOatInit c5wInput)).delta_pa = 0 := by
    norm_num [iterStep, newPressAlt, paOatInit, refreshFromPa, c5wInput,
      theta_from_press_alt, listMean, listDiff, cumsum, cumsumFrom, sumSqDiff]
  have e2 : (iterStep c5wInput (paOatInit c5wInput)).delta_oat = 0 := by
    norm_num [iterStep, newPressAlt, paOatInit, refreshFromPa, c5wInput,
      theta_from_press_alt, listMean, listDiff, cumsum, cumsumFrom, sumSqDiff]
  have hrun : iterLoop c5wInput 2 (paOatInit c5wInput) =
      some (iterStep c5wInput (paOatInit c5wInput)) := by
    have g0 : loopGuard (paOatInit c5wInput) :=
      Or.inl (by rw [show (paOatInit c5wInput).delta_pa = (1000 : ℚ) from rfl]; norm_num)
    have g1 : ¬ loopGuard (iterStep c5wInput (paOatInit c5wInput)) := by
      unfold loopGuard
      rw [e1, e2]
      push_neg
      norm_num
    rw [show (2 : ℕ) = 1 + 1 from rfl, iterLoop, if_pos g0, iterLoop, if_neg g1]
  obtain ⟨t, ht, _, h1, h2⟩ :=
    C5_solver_tolerance_no_cap.1 c5wInput 2 _ (by rw [iterate_pa_oat, hrun]; rfl)
  exact ⟨t, ht, h1, h2⟩

/-! ## Claim C6: the Mach round trip (utilities.py lines 16-36) -/

/-- qc/Pa pressure ratio from Mach number (utilities.py lines 30-36),
scalar form: above Mach 1 the Rayleigh supersonic form
166.921·m⁷/(7m² − 1)^2.5 − 1, otherwise (1 + 0.2 m²)^3.5 − 1. -/
noncomputable def qc_pa_from_mach (m : ℝ) : ℝ :=
  if 1 < m then 166.921 * m ^ 7 / (7 * m ^ 2 - 1) ^ ((5 : ℝ) / 2) - 1
  else (1 + 0.2 * m ^ 2) ^ ((7 : ℝ) / 2) - 1

/-- Subsonic closed form of mach_from_qc_pa (utilities.py line 20):
sqrt(5·((|r| + 1)^(2/7) − 1)). -/
noncomputable def mach_subsonic (r : ℝ) : ℝ :=
  Real.sqrt (5 * ((|r| + 1) ^ ((2 : ℝ) / 7) - 1))

/-- Residual whose root brentq brackets on the supersonic branch
(utilities.py lines 23-25). -/
noncomputable def supersonic_residual (r m : ℝ) : ℝ :=
  m - 0.881284 * Real.sqrt ((r + 1) * (1 - 1 / (7 * m ^ 2)) ^ ((5 : ℝ) / 2))

/-- mach_from_qc_pa (utilities.py lines 16-27) as an input/output relation:
at ratios up to the threshold 0.89293 the closed subsonic form; above it,
any root of the residual inside the brentq bracket [1, 3].  The external
root finder is modelled as exact: it returns a root of the continuous
residual within its bracket. -/
noncomputable def mach_from_qc_pa_rel (r m : ℝ) : Prop :=
  if 0.89293 < r then 1 ≤ m ∧ m ≤ 3 ∧ supersonic_residual r m = 0
  else m = mach_subsonic r

/-- Half-integer powers through the square root: a^(7/2) = sqrt(a⁷). -/
theorem rpow_seven_half (a : ℝ) (ha : 0 ≤ a) :
    a ^ ((7 : ℝ) / 2) = Real.sqrt (a ^ (7 : ℕ)) := by
  rw [show ((7 : ℝ) / 2) = ((7 : ℕ) : ℝ) * (1 / 2) by norm_num,
    Real.rpow_mul ha, Real.rpow_natCast, Real.sqrt_eq_rpow]

/-- Half-integer powers through the square root: a^(5/2) = sqrt(a⁵). -/
theorem rpow_five_half (a : ℝ) (ha : 0 ≤ a) :
    a ^ ((5 : ℝ) / 2) = Real.sqrt (a ^ (5 : ℕ)) := by
  rw [show ((5 : ℝ) / 2) = ((5 : ℕ) : ℝ) * (1 / 2) by norm_num,
    Real.rpow_mul ha, Real.rpow_natCast, Real.sqrt_eq_rpow]

/-- The seventh power of a^(2/7) recovers a². -/
theorem rpow_two_sevenths_pow (a : ℝ) (ha : 0 ≤ a) :
    (a ^ ((2 : ℝ) / 7)) ^ (7 : ℕ) = a ^ (2 : ℕ) := by
  rw [← Real.rpow_natCast (a ^ ((2 : ℝ) / 7)) 7, ← Real.rpow_mul ha,
    show (2 : ℝ) / 7 * ((7 : ℕ) : ℝ) = ((2 : ℕ) : ℝ) by norm_num,
    Real.rpow_natCast]

/-- On the subsonic branch, Mach numbers up to 1 round-trip exactly: the
computed ratio stays at or below the 0.89293 threshold, the subsonic
inverse applies, and the two fractional powers cancel. -/
theorem roundtrip_subsonic (M m : ℝ) (h0 : 0 ≤ M) (h1 : M ≤ 1)
    (h : mach_from_qc_pa_rel (qc_pa_from_mach M) m) : m = M := by
  have hM1 : ¬ (1 < M) := not_lt.mpr h1
  have hs0 : (0 : ℝ) ≤ 1 + 0.2 * M ^ 2 := by positivity
  have hq : qc_pa_from_mach M = (1 + 0.2 * M ^ 2) ^ ((7 : ℝ) / 2) - 1 := by
    rw [qc_pa_from_mach, if_neg hM1]
  have hr1 : (1 + 0.2 * M ^ 2) ^ ((7 : ℝ) / 2) ≤ 1.89293 := by
    rw [rpow_seven_half _ hs0]
    have h12 : (1 + 0.2 * M ^ 2) ^ (7 : ℕ) ≤ (1.2 : ℝ) ^ (7 : ℕ) :=
      pow_le_pow_left₀ hs0 (by nlinarith) 7
    calc Real.sqrt ((1 + 0.2 * M ^ 2) ^ (7 : ℕ))
        ≤ Real.sqrt ((1.2 : ℝ) ^ (7 : ℕ)) := Real.sqrt_le_sqrt h12
      _ ≤ Real.sqrt ((1.89293 : ℝ) ^ (2 : ℕ)) := Real.sqrt_le_sqrt (by norm_num)
      _ = 1.89293 := Real.sqrt_sq (by norm_num)
  have hge1 : (1 : ℝ) ≤ (1 + 0.2 * M ^ 2) ^ ((7 : ℝ) / 2) := by
    calc (1 : ℝ) = (1 : ℝ) ^ ((7 : ℝ) / 2) := (Real.one_rpow _).symm
      _ ≤ (1 + 0.2 * M ^ 2) ^ ((7 : ℝ) / 2) :=
          Real.rpow_le_rpow (by norm_num) (by nlinarith) (by norm_num)
  have hno : ¬ ((0.89293 : ℝ) < qc_pa_from_mach M) := by
    rw [hq]
    push_neg
    nlinarith [hr1]
  rw [mach_from_qc_pa_rel, if_neg hno] at h
  have habs : |qc_pa_from_mach M| = qc_pa_from_mach M := by
    apply abs_of_nonneg
    rw [hq]
    nlinarith [hge1]
  rw [h, mach_subsonic, habs, hq,
    show (1 + 0.2 * M ^ 2) ^ ((7 : ℝ) / 2) - 1 + 1 =
      (1 + 0.2 * M ^ 2) ^ ((7 : ℝ) / 2) by ring,
    ← Real.rpow_mul hs0,
    show (7 : ℝ) / 2 * ((2 : ℝ) / 7) = 1 by norm_num, Real.rpow_one,
    show (5 : ℝ) * (1 + 0.2 * M ^ 2 - 1) = M ^ 2 by ring]
  exact Real.sqrt_sq h0

/-- Auxiliary polynomial x²(7 − x)⁵.  Through x = 1/u it encodes the
rational function u⁷/(7u − 1)⁵ that the squared supersonic relations reduce
to: gfun (1/m²) · m¹⁴ = (7m² − 1)⁵. -/
noncomputable def gfun (x : ℝ) : ℝ := x ^ 2 * (7 - x) ^ 5

/-- The auxiliary polynomial increases strictly on [0, 2]: its derivative
x(7 − x)⁴(14 − 7x) is positive inside. -/
theorem gfun_strictMonoOn : StrictMonoOn gfun (Set.Icc (0 : ℝ) 2) := by
  apply strictMonoOn_of_deriv_pos (convex_Icc 0 2)
  · exact ((continuous_pow 2).mul
      ((continuous_const.sub continuous_id).pow 5)).continuousOn
  · intro x hx
    rw [interior_Icc] at hx
    have h1 : HasDerivAt (fun y : ℝ => y ^ 2) (2 * x) x := by
      simpa using hasDerivAt_pow 2 x
    have h2 : HasDerivAt (fun y : ℝ => (7 - y) ^ 5)
        (5 * (7 - x) ^ 4 * (0 - 1)) x := by
      exact (HasDerivAt.pow 5 ((hasDerivAt_const x (7 : ℝ)).sub (hasDerivAt_id x)))
    have hd : HasDerivAt gfun (2 * x * (7 - x) ^ 5 + x ^ 2 * (5 * (7 - x) ^ 4 * (0 - 1))) x :=
      h1.mul h2
    rw [hd.deriv]
    have hfact : 2 * x * (7 - x) ^ 5 + x ^ 2 * (5 * (7 - x) ^ 4 * (0 - 1)) =
        x * (7 - x) ^ 4 * (14 - 7 * x) := by ring
    rw [hfact]
    have hx7 : (0 : ℝ) < 7 - x := by linarith [hx.2]
    exact mul_pos (mul_pos hx.1 (pow_pos hx7 4)) (by linarith [hx.2])

set_option maxHeartbeats 2000000 in
/-- Supersonic estimate: an exact root m of the brentq residual in [1, 3],
for the ratio produced from a Mach number M in (1, 3], lies strictly below
M and within 8.1e-4 of it.  Squaring removes the fractional powers and
leaves gfun (1/m²) = gfun (1/M²) · 16807/(0.881284⁴ · 166.921²); the factor
sits just above 1 because the two rounded constants nearly invert each
other, and the strict growth of gfun turns that into the bound. -/
theorem supersonic_root_close (M m r : ℝ) (hM1 : 1 < M) (hM3 : M ≤ 3)
    (hr : r + 1 = 166.921 * M ^ 7 / (7 * M ^ 2 - 1) ^ ((5 : ℝ) / 2))
    (hm1 : 1 ≤ m) (hm3 : m ≤ 3)
    (hres : supersonic_residual r m = 0) :
    M - 1e-3 ≤ m ∧ m < M := by
  have hM0 : (0 : ℝ) < M := by linarith
  have hm0 : (0 : ℝ) < m := by linarith
  have hM2gt1 : (1 : ℝ) < M ^ 2 := by nlinarith
  have hm2ge1 : (1 : ℝ) ≤ m ^ 2 := by nlinarith
  have hW : (0 : ℝ) < 7 * M ^ 2 - 1 := by linarith
  have hq : (0 : ℝ) < 7 * m ^ 2 - 1 := by linarith
  have hW52 : (0 : ℝ) < (7 * M ^ 2 - 1) ^ ((5 : ℝ) / 2) :=
    Real.rpow_pos_of_pos hW _
  have hrp : (0 : ℝ) < r + 1 := by
    rw [hr]; positivity
  have hrW : (r + 1) * (7 * M ^ 2 - 1) ^ ((5 : ℝ) / 2) = 166.921 * M ^ 7 := by
    rw [hr]; field_simp
  have hrsq : (r + 1) ^ 2 * (7 * M ^ 2 - 1) ^ (5 : ℕ) =
      166.921 ^ 2 * M ^ (14 : ℕ) := by
    have h1 := congrArg (fun t : ℝ => t ^ 2) hrW
    simp only [mul_pow] at h1
    have h2 : ((7 * M ^ 2 - 1) ^ ((5 : ℝ) / 2)) ^ (2 : ℕ) =
        (7 * M ^ 2 - 1) ^ (5 : ℕ) := by
      rw [rpow_five_half _ hW.le, Real.sq_sqrt (by positivity)]
    rw [h2] at h1
    linear_combination h1
  have hmeq : m = 0.881284 * Real.sqrt ((r + 1) * (1 - 1 / (7 * m ^ 2)) ^ ((5 : ℝ) / 2)) := by
    have := hres
    unfold supersonic_residual at this
    linarith
  have hbase : (0 : ℝ) ≤ 1 - 1 / (7 * m ^ 2) := by
    rw [sub_nonneg, div_le_one (by positivity)]
    linarith
  have hE0 : (0 : ℝ) ≤ (r + 1) * (1 - 1 / (7 * m ^ 2)) ^ ((5 : ℝ) / 2) :=
    mul_nonneg hrp.le (Real.rpow_nonneg hbase _)
  have hm2 : m ^ 2 = 0.881284 ^ 2 *
      ((r + 1) * (1 - 1 / (7 * m ^ 2)) ^ ((5 : ℝ) / 2)) := by
    conv_lhs => rw [hmeq]
    rw [mul_pow, Real.sq_sqrt hE0]
  have h15 : ((1 - 1 / (7 * m ^ 2)) ^ ((5 : ℝ) / 2)) ^ (2 : ℕ) =
      (1 - 1 / (7 * m ^ 2)) ^ (5 : ℕ) := by
    rw [rpow_five_half _ hbase, Real.sq_sqrt (by positivity)]
  have hm4 : m ^ (4 : ℕ) = 0.881284 ^ 4 * (r + 1) ^ 2 *
      (1 - 1 / (7 * m ^ 2)) ^ (5 : ℕ) := by
    have h1 := congrArg (fun t : ℝ => t ^ 2) hm2
    simp only [mul_pow] at h1
    rw [h15] at h1
    linear_combination h1
  have hfrac : 1 - 1 / (7 * m ^ 2) = (7 * m ^ 2 - 1) / (7 * m ^ 2) := by
    field_simp
  have P0 : 16807 * m ^ (14 : ℕ) =
      0.881284 ^ 4 * (r + 1) ^ 2 * (7 * m ^ 2 - 1) ^ (5 : ℕ) := by
    have h7 : ((7 : ℝ) * m ^ 2) ^ (5 : ℕ) ≠ 0 := by positivity
    have h1 := congrArg (fun t : ℝ => t * ((7 : ℝ) * m ^ 2) ^ (5 : ℕ)) hm4
    simp only [hfrac, div_pow] at h1
    rw [mul_assoc, div_mul_cancel₀ _ h7] at h1
    linear_combination h1
  have P1 : 16807 * m ^ (14 : ℕ) * (7 * M ^ 2 - 1) ^ (5 : ℕ) =
      0.881284 ^ 4 * 166.921 ^ 2 * M ^ (14 : ℕ) * (7 * m ^ 2 - 1) ^ (5 : ℕ) := by
    calc 16807 * m ^ (14 : ℕ) * (7 * M ^ 2 - 1) ^ (5 : ℕ)
        = (16807 * m ^ (14 : ℕ)) * (7 * M ^ 2 - 1) ^ (5 : ℕ) := by ring
      _ = (0.881284 ^ 4 * (r + 1) ^ 2 * (7 * m ^ 2 - 1) ^ (5 : ℕ)) *
            (7 * M ^ 2 - 1) ^ (5 : ℕ) := by rw [P0]
      _ = 0.881284 ^ 4 * (7 * m ^ 2 - 1) ^ (5 : ℕ) *
            ((r + 1) ^ 2 * (7 * M ^ 2 - 1) ^ (5 : ℕ)) := by ring
      _ = 0.881284 ^ 4 * (7 * m ^ 2 - 1) ^ (5 : ℕ) *
            (166.921 ^ 2 * M ^ (14 : ℕ)) := by rw [hrsq]
      _ = 0.881284 ^ 4 * 166.921 ^ 2 * M ^ (14 : ℕ) *
            (7 * m ^ 2 - 1) ^ (5 : ℕ) := by ring
  have hgm : gfun (1 / m ^ 2) * m ^ (14 : ℕ) = (7 * m ^ 2 - 1) ^ (5 : ℕ) := by
    unfold gfun
    field_simp
    ring
  have hgM : gfun (1 / M ^ 2) * M ^ (14 : ℕ) = (7 * M ^ 2 - 1) ^ (5 : ℕ) := by
    unfold gfun
    field_simp
    ring
  have key : 16807 * gfun (1 / M ^ 2) =
      0.881284 ^ 4 * 166.921 ^ 2 * gfun (1 / m ^ 2) := by
    have hcan : m ^ (14 : ℕ) * M ^ (14 : ℕ) ≠ 0 := by positivity
    have h := P1
    rw [← hgm, ← hgM] at h
    have hstep : (16807 * gfun (1 / M ^ 2)) * (m ^ (14 : ℕ) * M ^ (14 : ℕ)) =
        (0.881284 ^ 4 * 166.921 ^ 2 * gfun (1 / m ^ 2)) *
          (m ^ (14 : ℕ) * M ^ (14 : ℕ)) := by linear_combination h
    exact mul_right_cancel₀ hcan hstep
  have hX0 : (0 : ℝ) < 1 / M ^ 2 := by positivity
  have hX1 : 1 / M ^ 2 < 1 := by
    rw [div_lt_one (by positivity)]
    exact hM2gt1
  have hx0 : (0 : ℝ) < 1 / m ^ 2 := by positivity
  have hx1 : 1 / m ^ 2 ≤ 1 := by
    rw [div_le_one (by positivity)]
    exact hm2ge1
  have hgX_pos : (0 : ℝ) < gfun (1 / M ^ 2) := by
    unfold gfun
    have h7 : (0 : ℝ) < 7 - 1 / M ^ 2 := by linarith
    positivity
  have hcc0 : (0 : ℝ) < 0.881284 ^ 4 * 166.921 ^ 2 := by norm_num
  have hcc : (0.881284 : ℝ) ^ 4 * 166.921 ^ 2 < 16807 := by norm_num
  have hlt : gfun (1 / M ^ 2) < gfun (1 / m ^ 2) := by
    by_contra hcon
    push_neg at hcon
    have h1 : (16807 : ℝ) * gfun (1 / M ^ 2) ≤
        (0.881284 ^ 4 * 166.921 ^ 2) * gfun (1 / M ^ 2) := by
      rw [key]
      exact mul_le_mul_of_nonneg_left hcon hcc0.le
    have h2 : (16807 : ℝ) ≤ 0.881284 ^ 4 * 166.921 ^ 2 :=
      (mul_le_mul_right hgX_pos).mp h1
    linarith
  have hxlt : 1 / M ^ 2 < 1 / m ^ 2 := by
    by_contra hcon
    push_neg at hcon
    rcases eq_or_lt_of_le hcon with heq | hlt2
    · rw [heq] at hlt
      exact lt_irrefl _ hlt
    · have hmem1 : 1 / m ^ 2 ∈ Set.Icc (0 : ℝ) 2 := ⟨hx0.le, by linarith⟩
      have hmem2 : 1 / M ^ 2 ∈ Set.Icc (0 : ℝ) 2 := ⟨hX0.le, by linarith⟩
      have := gfun_strictMonoOn hmem1 hmem2 hlt2
      linarith
  have hmM : m < M := by
    have h2 : m ^ 2 < M ^ 2 := by
      rw [div_lt_div_iff₀ (pow_pos hM0 2) (pow_pos hm0 2)] at hxlt
      linarith
    by_contra hcon2
    push_neg at hcon2
    have := pow_le_pow_left₀ hM0.le hcon2 2
    linarith
  have hgrow : (1 + 2e-5) ^ 2 * (1 - 2e-5 / 6) ^ 5 * gfun (1 / M ^ 2) ≤
      gfun (1 / M ^ 2 + 2e-5) := by
    have ha1 : (0 : ℝ) ≤ (1 + 2e-5) * (1 / M ^ 2) := by positivity
    have hb1 : (1 + 2e-5) * (1 / M ^ 2) ≤ 1 / M ^ 2 + 2e-5 := by
      have h := mul_le_mul_of_nonneg_left hX1.le (by norm_num : (0 : ℝ) ≤ 2e-5)
      linarith
    have ha2 : (0 : ℝ) ≤ (1 - 2e-5 / 6) * (7 - 1 / M ^ 2) :=
      mul_nonneg (by norm_num) (by linarith)
    have hb2 : (1 - 2e-5 / 6) * (7 - 1 / M ^ 2) ≤ 7 - (1 / M ^ 2 + 2e-5) := by
      have h := mul_le_mul_of_nonneg_left hX1.le (by norm_num : (0 : ℝ) ≤ 2e-5 / 6)
      linarith
    have e1 := pow_le_pow_left₀ ha1 hb1 2
    have e2 := pow_le_pow_left₀ ha2 hb2 5
    unfold gfun
    calc (1 + 2e-5) ^ 2 * (1 - 2e-5 / 6) ^ 5 * ((1 / M ^ 2) ^ 2 * (7 - 1 / M ^ 2) ^ 5)
        = ((1 + 2e-5) * (1 / M ^ 2)) ^ 2 * ((1 - 2e-5 / 6) * (7 - 1 / M ^ 2)) ^ 5 := by
          ring
      _ ≤ (1 / M ^ 2 + 2e-5) ^ 2 * (7 - (1 / M ^ 2 + 2e-5)) ^ 5 :=
          mul_le_mul e1 e2 (pow_nonneg ha2 5) (sq_nonneg _)
  have hratio : (16807 : ℝ) ≤
      (0.881284 ^ 4 * 166.921 ^ 2) * ((1 + 2e-5) ^ 2 * (1 - 2e-5 / 6) ^ 5) := by
    norm_num
  have hupper : gfun (1 / m ^ 2) ≤ gfun (1 / M ^ 2 + 2e-5) := by
    have s1 : (0.881284 ^ 4 * 166.921 ^ 2) *
        ((1 + 2e-5) ^ 2 * (1 - 2e-5 / 6) ^ 5 * gfun (1 / M ^ 2)) ≤
        (0.881284 ^ 4 * 166.921 ^ 2) * gfun (1 / M ^ 2 + 2e-5) :=
      mul_le_mul_of_nonneg_left hgrow hcc0.le
    have s2 : 16807 * gfun (1 / M ^ 2) ≤
        (0.881284 ^ 4 * 166.921 ^ 2) *
          ((1 + 2e-5) ^ 2 * (1 - 2e-5 / 6) ^ 5 * gfun (1 / M ^ 2)) := by
      have h := mul_le_mul_of_nonneg_right hratio hgX_pos.le
      calc 16807 * gfun (1 / M ^ 2)
          ≤ (0.881284 ^ 4 * 166.921 ^ 2) * ((1 + 2e-5) ^ 2 * (1 - 2e-5 / 6) ^ 5) *
              gfun (1 / M ^ 2) := h
        _ = (0.881284 ^ 4 * 166.921 ^ 2) *
              ((1 + 2e-5) ^ 2 * (1 - 2e-5 / 6) ^ 5 * gfun (1 / M ^ 2)) := by ring
    have s3 : (0.881284 ^ 4 * 166.921 ^ 2) * gfun (1 / m ^ 2) ≤
        (0.881284 ^ 4 * 166.921 ^ 2) * gfun (1 / M ^ 2 + 2e-5) := by
      calc (0.881284 ^ 4 * 166.921 ^ 2) * gfun (1 / m ^ 2)
          = 16807 * gfun (1 / M ^ 2) := key.symm
        _ ≤ _ := le_trans s2 s1
    exact (mul_le_mul_left hcc0).mp s3
  have hxle : 1 / m ^ 2 ≤ 1 / M ^ 2 + 2e-5 := by
    by_contra hcon
    push_neg at hcon
    have hmem1 : 1 / M ^ 2 + 2e-5 ∈ Set.Icc (0 : ℝ) 2 := ⟨by positivity, by linarith⟩
    have hmem2 : 1 / m ^ 2 ∈ Set.Icc (0 : ℝ) 2 := ⟨hx0.le, by linarith⟩
    have := gfun_strictMonoOn hmem1 hmem2 hcon
    linarith
  have hm2ge : M ^ 2 - m ^ 2 ≤ 81 * 2e-5 := by
    have h1 : 1 / m ^ 2 - 1 / M ^ 2 ≤ 2e-5 := by linarith
    have heq2 : M ^ 2 - m ^ 2 = (1 / m ^ 2 - 1 / M ^ 2) * (m ^ 2 * M ^ 2) := by
      field_simp
    have hm9 : m ^ 2 ≤ 9 := by
      calc m ^ 2 ≤ 3 ^ 2 := pow_le_pow_left₀ hm0.le hm3 2
        _ = 9 := by norm_num
    have hM9 : M ^ 2 ≤ 9 := by
      calc M ^ 2 ≤ 3 ^ 2 := pow_le_pow_left₀ hM0.le hM3 2
        _ = 9 := by norm_num
    have h3 : m ^ 2 * M ^ 2 ≤ 81 := by
      calc m ^ 2 * M ^ 2 ≤ 9 * M ^ 2 :=
            mul_le_mul_of_nonneg_right hm9 (sq_nonneg M)
        _ ≤ 9 * 9 := mul_le_mul_of_nonneg_left hM9 (by norm_num)
        _ = 81 := by norm_num
    have h4 : (0 : ℝ) ≤ 1 / m ^ 2 - 1 / M ^ 2 := by linarith [hxlt]
    calc M ^ 2 - m ^ 2 = (1 / m ^ 2 - 1 / M ^ 2) * (m ^ 2 * M ^ 2) := heq2
      _ ≤ 2e-5 * 81 := by
          apply mul_le_mul h1 h3 (by positivity) (by norm_num)
      _ = 81 * 2e-5 := by ring
  refine ⟨?_, hmM⟩
  have h5 : (0 : ℝ) ≤ (M - m) * (M + m - 2) :=
    mul_nonneg (sub_nonneg.mpr hmM.le) (by linarith)
  have hexp : (M - m) * (M + m - 2) = M ^ 2 - m ^ 2 - 2 * M + 2 * m := by ring
  rw [hexp] at h5
  linarith

set_option maxHeartbeats 2000000 in
/-- Borderline estimate: for Mach numbers just above 1 the computed ratio
can fall at or below the 0.89293 threshold, so the code evaluates the
subsonic closed form on a supersonic ratio.  This happens only for M up to
1.0001, where the subsonic formula still lands within 1.3e-4 of M. -/
theorem subsonic_branch_near_one (M m r : ℝ) (hM1 : 1 < M) (hM3 : M ≤ 3)
    (hr : r + 1 = 166.921 * M ^ 7 / (7 * M ^ 2 - 1) ^ ((5 : ℝ) / 2))
    (hthr : r ≤ 0.89293)
    (hm : m = mach_subsonic r) :
    |m - M| ≤ 1e-3 := by
  have hM0 : (0 : ℝ) < M := by linarith
  have hM2gt1 : (1 : ℝ) < M ^ 2 := by nlinarith
  have hW : (0 : ℝ) < 7 * M ^ 2 - 1 := by linarith
  have hrp : (0 : ℝ) < r + 1 := by
    rw [hr]; positivity
  have hrW : (r + 1) * (7 * M ^ 2 - 1) ^ ((5 : ℝ) / 2) = 166.921 * M ^ 7 := by
    rw [hr]; field_simp
  have hrsq : (r + 1) ^ 2 * (7 * M ^ 2 - 1) ^ (5 : ℕ) =
      166.921 ^ 2 * M ^ (14 : ℕ) := by
    have h1 := congrArg (fun t : ℝ => t ^ 2) hrW
    simp only [mul_pow] at h1
    have h2 : ((7 * M ^ 2 - 1) ^ ((5 : ℝ) / 2)) ^ (2 : ℕ) =
        (7 * M ^ 2 - 1) ^ (5 : ℕ) := by
      rw [rpow_five_half _ hW.le, Real.sq_sqrt (by positivity)]
    rw [h2] at h1
    linear_combination h1
  have hgM : gfun (1 / M ^ 2) * M ^ (14 : ℕ) = (7 * M ^ 2 - 1) ^ (5 : ℕ) := by
    unfold gfun
    field_simp
    ring
  have keyB : (r + 1) ^ 2 * gfun (1 / M ^ 2) = 166.921 ^ 2 := by
    have hcan : (M ^ (14 : ℕ) : ℝ) ≠ 0 := by positivity
    apply mul_right_cancel₀ hcan
    calc (r + 1) ^ 2 * gfun (1 / M ^ 2) * M ^ (14 : ℕ)
        = (r + 1) ^ 2 * (gfun (1 / M ^ 2) * M ^ (14 : ℕ)) := by ring
      _ = (r + 1) ^ 2 * (7 * M ^ 2 - 1) ^ (5 : ℕ) := by rw [hgM]
      _ = 166.921 ^ 2 * M ^ (14 : ℕ) := hrsq
  have hX0 : (0 : ℝ) < 1 / M ^ 2 := by positivity
  have hX1 : 1 / M ^ 2 < 1 := by
    rw [div_lt_one (by positivity)]
    exact hM2gt1
  have hrub : (r + 1) ^ 2 ≤ (1.89293 : ℝ) ^ 2 :=
    pow_le_pow_left₀ hrp.le (by linarith) 2
  have hMle : M ≤ 1.0001 := by
    by_contra hcon
    push_neg at hcon
    have hXlt : 1 / M ^ 2 < 1 / (1.0001 : ℝ) ^ 2 := by
      rw [div_lt_div_iff₀ (by positivity) (by norm_num)]
      have h := pow_lt_pow_left₀ hcon (by norm_num : (0 : ℝ) ≤ 1.0001)
        (two_ne_zero)
      linarith
    have hg : gfun (1 / M ^ 2) < gfun (1 / (1.0001 : ℝ) ^ 2) :=
      gfun_strictMonoOn ⟨hX0.le, by linarith⟩ ⟨by norm_num, by norm_num⟩ hXlt
    have h2 : 166.921 ^ 2 < (r + 1) ^ 2 * gfun (1 / (1.0001 : ℝ) ^ 2) := by
      calc (166.921 : ℝ) ^ 2 = (r + 1) ^ 2 * gfun (1 / M ^ 2) := keyB.symm
        _ < (r + 1) ^ 2 * gfun (1 / (1.0001 : ℝ) ^ 2) :=
            mul_lt_mul_of_pos_left hg (pow_pos hrp 2)
    have hg0 : (0 : ℝ) ≤ gfun (1 / (1.0001 : ℝ) ^ 2) := by
      unfold gfun
      norm_num
    have h3 : 166.921 ^ 2 < (1.89293 : ℝ) ^ 2 * gfun (1 / (1.0001 : ℝ) ^ 2) :=
      lt_of_lt_of_le h2 (mul_le_mul_of_nonneg_right hrub hg0)
    have hnum : (1.89293 : ℝ) ^ 2 * gfun (1 / (1.0001 : ℝ) ^ 2) < 166.921 ^ 2 := by
      unfold gfun
      norm_num
    linarith
  have hg1 : gfun (1 : ℝ) = 7776 := by
    unfold gfun
    norm_num
  have hgXlt : gfun (1 / M ^ 2) < gfun 1 :=
    gfun_strictMonoOn ⟨hX0.le, by linarith⟩ ⟨by norm_num, by norm_num⟩ hX1
  have hrlb : (166.921 : ℝ) ^ 2 < (r + 1) ^ 2 * 7776 := by
    calc (166.921 : ℝ) ^ 2 = (r + 1) ^ 2 * gfun (1 / M ^ 2) := keyB.symm
      _ < (r + 1) ^ 2 * gfun 1 := mul_lt_mul_of_pos_left hgXlt (pow_pos hrp 2)
      _ = (r + 1) ^ 2 * 7776 := by rw [hg1]
  have hx7 : ((r + 1) ^ ((2 : ℝ) / 7)) ^ (7 : ℕ) = (r + 1) ^ (2 : ℕ) :=
    rpow_two_sevenths_pow _ hrp.le
  have hx0 : (0 : ℝ) ≤ (r + 1) ^ ((2 : ℝ) / 7) := Real.rpow_nonneg hrp.le _
  have hxlb : (1.19999 : ℝ) ≤ (r + 1) ^ ((2 : ℝ) / 7) := by
    apply le_of_pow_le_pow_left₀ (n := 7) (by norm_num) hx0
    rw [hx7]
    have hnum : (1.19999 : ℝ) ^ 7 * 7776 ≤ 166.921 ^ 2 := by norm_num
    linarith
  have hxub : (r + 1) ^ ((2 : ℝ) / 7) ≤ (1.2000005 : ℝ) := by
    apply le_of_pow_le_pow_left₀ (n := 7) (by norm_num) (by norm_num)
    rw [hx7]
    have hnum : (1.89293 : ℝ) ^ 2 ≤ (1.2000005 : ℝ) ^ 7 := by norm_num
    linarith [hrub]
  have hr0 : (0 : ℝ) ≤ r := by
    by_contra hc
    push_neg at hc
    have hle1 : r + 1 ≤ 1 := by linarith
    have hsq : (r + 1) ^ 2 ≤ 1 := by
      calc (r + 1) ^ 2 = (r + 1) * (r + 1) := by ring
        _ ≤ 1 * 1 := mul_le_mul hle1 hle1 hrp.le zero_le_one
        _ = 1 := by norm_num
    have : (166.921 : ℝ) ^ 2 < 7776 := by
      calc (166.921 : ℝ) ^ 2 < (r + 1) ^ 2 * 7776 := hrlb
        _ ≤ 1 * 7776 := mul_le_mul_of_nonneg_right hsq (by norm_num)
        _ = 7776 := by norm_num
    norm_num at this
  have habs : |r| = r := abs_of_nonneg hr0
  have hmval : m = Real.sqrt (5 * ((r + 1) ^ ((2 : ℝ) / 7) - 1)) := by
    rw [hm, mach_subsonic, habs]
  have harg : (0 : ℝ) ≤ 5 * ((r + 1) ^ ((2 : ℝ) / 7) - 1) := by linarith [hxlb]
  have hmsq : m ^ 2 = 5 * ((r + 1) ^ ((2 : ℝ) / 7) - 1) := by
    rw [hmval, Real.sq_sqrt harg]
  have hm0 : (0 : ℝ) ≤ m := by
    rw [hmval]
    exact Real.sqrt_nonneg _
  have hmlb : (0.999974 : ℝ) ≤ m := by
    by_contra hc
    push_neg at hc
    have h1 : m ^ 2 < (0.999974 : ℝ) ^ 2 := by
      calc m ^ 2 = m * m := by ring
        _ < 0.999974 * 0.999974 := by nlinarith [hm0, hc]
        _ = (0.999974 : ℝ) ^ 2 := by ring
    have h2 : (5 : ℝ) * (1.19999 - 1) ≤ m ^ 2 := by
      rw [hmsq]
      linarith [hxlb]
    norm_num at h1 h2
    linarith
  have hmub : m ≤ (1.0000013 : ℝ) := by
    apply le_of_pow_le_pow_left₀ (n := 2) (by norm_num) (by norm_num)
    rw [hmsq]
    have h2 : (5 : ℝ) * ((r + 1) ^ ((2 : ℝ) / 7) - 1) ≤ 5 * (1.2000005 - 1) := by
      linarith [hxub]
    have hnum : (5 : ℝ) * (1.2000005 - 1) ≤ (1.0000013 : ℝ) ^ 2 := by norm_num
    linarith
  rw [abs_le]
  constructor
  · linarith
  · linarith

/-- Claim C6: for every Mach number M in [0, 3] and every value m that
mach_from_qc_pa may produce for the ratio qc_pa_from_mach M, m recovers M
within numerical tolerance (1e-3).  Mach numbers up to and including the
boundary M = 1 stay on the subsonic branch and round-trip exactly; above 1
the computed ratio either exceeds the 0.89293 threshold - then the
bracketed root of the supersonic residual lies within 8.1e-4 below M - or
falls at the threshold or under it for M up to 1.0001, where the subsonic
formula still lands within 1.3e-4 of M. -/
theorem C6_mach_roundtrip (M m : ℝ) (h0 : 0 ≤ M) (h3 : M ≤ 3)
    (h : mach_from_qc_pa_rel (qc_pa_from_mach M) m) :
    |m - M| ≤ 1e-3 := by
  by_cases hM1 : M ≤ 1
  · rw [roundtrip_subsonic M m h0 hM1 h, sub_self, abs_zero]
    norm_num
  · push_neg at hM1
    have hr : qc_pa_from_mach M + 1 =
        166.921 * M ^ 7 / (7 * M ^ 2 - 1) ^ ((5 : ℝ) / 2) := by
      rw [qc_pa_from_mach, if_pos hM1]
      ring
    rw [mach_from_qc_pa_rel] at h
    by_cases hthr : (0.89293 : ℝ) < qc_pa_from_mach M
    · rw [if_pos hthr] at h
      obtain ⟨hm1, hm3, hres⟩ := h
      obtain ⟨hl, hu⟩ := supersonic_root_close M m _ hM1 h3 hr hm1 hm3 hres
      rw [abs_le]
      constructor <;> linarith
    · rw [if_neg hthr] at h
      push_neg at hthr
      exact subsonic_branch_near_one M m _ hM1 h3 hr hthr h

/-- Witness for C6 at Mach 0: the ratio is 0, the subsonic branch applies
and returns 0 exactly. -/
theorem C6_mach_roundtrip_witness :
    mach_from_qc_pa_rel (qc_pa_from_mach 0) 0 ∧ |(0 : ℝ) - 0| ≤ 1e-3 := by
  have hq0 : qc_pa_from_mach (0 : ℝ) = 0 := by
    rw [qc_pa_from_mach, if_neg (by norm_num)]
    norm_num [Real.one_rpow]
  have hrel : mach_from_qc_pa_rel (qc_pa_from_mach 0) 0 := by
    rw [hq0, mach_from_qc_pa_rel, if_neg (by norm_num), mach_subsonic]
    norm_num [Real.one_rpow, Real.sqrt_zero]
  exact ⟨hrel, C6_mach_roundtrip 0 0 le_rfl (by norm_num) hrel⟩

end JMOSS
